import Mathlib

/-
  Verification development for the EKF core of the repository
  (src/src/imu/ekf.cpp, namespace vllm).

  The C++ code is shallowly embedded over exact real arithmetic:
  Eigen vectors become functions `Fin n → ℝ`, Eigen matrices become
  `Matrix (Fin m) (Fin n) ℝ`, `Eigen::Quaternionf` becomes Mathlib's
  `Quaternion ℝ` (the Hamilton product of Eigen agrees with Mathlib's
  quaternion multiplication), and `unsigned long` timestamps become
  natural numbers with explicit modulo 2^64 subtraction.
-/

namespace VllmEKF

/-- Unsigned 64-bit subtraction `a - b` as performed by C++ on
`unsigned long` operands: the mathematical difference reduced modulo 2^64. -/
def usub64 (a b : ℕ) : ℕ := (((a : ℤ) - (b : ℤ)) % (2 ^ 64 : ℤ)).toNat

/-- Squared Euclidean norm of a 3-vector (Eigen `squaredNorm()`). -/
noncomputable def sqnorm3 (v : Fin 3 → ℝ) : ℝ := v 0 ^ 2 + v 1 ^ 2 + v 2 ^ 2

/-- Euclidean norm of a 3-vector (Eigen `norm()`). -/
noncomputable def norm3 (v : Fin 3 → ℝ) : ℝ := Real.sqrt (sqnorm3 v)

/-- Eigen `MatrixBase::normalized()` (Eigen 3.3 and later): divide by the
norm when the squared norm is positive, otherwise return the vector
unchanged. -/
noncomputable def normalized3 (v : Fin 3 → ℝ) : Fin 3 → ℝ :=
  if 0 < sqnorm3 v then (norm3 v)⁻¹ • v else v

/-- `EKF::hat` from ekf.cpp: the skew-symmetric cross-product matrix. -/
noncomputable def hat (v : Fin 3 → ℝ) : Matrix (Fin 3) (Fin 3) ℝ :=
  !![0, -v 2, v 1;
     v 2, 0, -v 0;
     -v 1, v 0, 0]

/-- Eigen `Quaternionf::toRotationMatrix()`: the standard quaternion to
rotation-matrix formula (valid for unit quaternions). -/
noncomputable def toRotationMatrix (q : Quaternion ℝ) : Matrix (Fin 3) (Fin 3) ℝ :=
  let w := q.re
  let x := q.imI
  let y := q.imJ
  let z := q.imK
  !![1 - 2 * (y * y + z * z), 2 * (x * y - w * z), 2 * (x * z + w * y);
     2 * (x * y + w * z), 1 - 2 * (x * x + z * z), 2 * (y * z - w * x);
     2 * (x * z - w * y), 2 * (y * z + w * x), 1 - 2 * (x * x + y * y)]

/-- `EKF::exp` from ekf.cpp:
`norm = v.norm(); c = cos(norm/2); s = sin(norm/2); n = s * v.normalized();`
returning the quaternion `(c, n.x, n.y, n.z)`. -/
noncomputable def exp (v : Fin 3 → ℝ) : Quaternion ℝ :=
  let norm := norm3 v
  let c := Real.cos (norm / 2)
  let s := Real.sin (norm / 2)
  let n : Fin 3 → ℝ := s • normalized3 v
  ⟨c, n 0, n 1, n 2⟩

/-- Eigen quaternion-from-rotation-matrix conversion
(`internal::quaternionbase_assign_impl`), branch with largest diagonal
entry at index 0: with `j = 1`, `k = 2`,
`t = sqrt(m(0,0) - m(1,1) - m(2,2) + 1)`, `q.x = t/2`,
`q.w = (m(2,1) - m(1,2))·(1/(2t))`, `q.y = (m(1,0) + m(0,1))·(1/(2t))`,
`q.z = (m(2,0) + m(0,2))·(1/(2t))`. -/
noncomputable def bigDiag0 (m : Matrix (Fin 3) (Fin 3) ℝ) : Quaternion ℝ :=
  let t := Real.sqrt (m 0 0 - m 1 1 - m 2 2 + 1)
  ⟨(m 2 1 - m 1 2) * (0.5 / t), 0.5 * t,
    (m 1 0 + m 0 1) * (0.5 / t), (m 2 0 + m 0 2) * (0.5 / t)⟩

/-- Eigen quaternion-from-rotation-matrix conversion, branch with largest
diagonal entry at index 1 (`j = 2`, `k = 0`). -/
noncomputable def bigDiag1 (m : Matrix (Fin 3) (Fin 3) ℝ) : Quaternion ℝ :=
  let t := Real.sqrt (m 1 1 - m 2 2 - m 0 0 + 1)
  ⟨(m 0 2 - m 2 0) * (0.5 / t), (m 0 1 + m 1 0) * (0.5 / t),
    0.5 * t, (m 2 1 + m 1 2) * (0.5 / t)⟩

/-- Eigen quaternion-from-rotation-matrix conversion, branch with largest
diagonal entry at index 2 (`j = 0`, `k = 1`). -/
noncomputable def bigDiag2 (m : Matrix (Fin 3) (Fin 3) ℝ) : Quaternion ℝ :=
  let t := Real.sqrt (m 2 2 - m 0 0 - m 1 1 + 1)
  ⟨(m 1 0 - m 0 1) * (0.5 / t), (m 0 2 + m 2 0) * (0.5 / t),
    (m 1 2 + m 2 1) * (0.5 / t), 0.5 * t⟩

/-- Eigen quaternion-from-rotation-matrix conversion, positive-trace
branch: `t = sqrt(trace + 1)`, `q.w = t/2`, vector part from the
off-diagonal differences scaled by `1/(2t)`. -/
noncomputable def bigTrace (m : Matrix (Fin 3) (Fin 3) ℝ) : Quaternion ℝ :=
  let t := Real.sqrt (m 0 0 + m 1 1 + m 2 2 + 1)
  ⟨0.5 * t, (m 2 1 - m 1 2) * (0.5 / t),
    (m 0 2 - m 2 0) * (0.5 / t), (m 1 0 - m 0 1) * (0.5 / t)⟩

/-- Eigen `Quaternionf(Matrix3f)` constructor
(`internal::quaternionbase_assign_impl::run`): if the trace is positive,
the positive-trace branch; otherwise the branch for the largest diagonal
entry (selected exactly as in the C++: `i = 0`, then `i = 1` if
`m(1,1) > m(0,0)`, then `i = 2` if `m(2,2) > m(i,i)`). -/
noncomputable def fromRotationMatrix (m : Matrix (Fin 3) (Fin 3) ℝ) : Quaternion ℝ :=
  if 0 < m 0 0 + m 1 1 + m 2 2 then bigTrace m
  else if m 1 1 > m 0 0 then
    if m 2 2 > m 1 1 then bigDiag2 m else bigDiag1 m
  else if m 2 2 > m 0 0 then bigDiag2 m
  else bigDiag0 m

/-- Eigen `Quaternionf::normalized()`: `coeffs().normalized()`, which
divides by the norm when the squared norm is positive and returns the
quaternion unchanged otherwise (Eigen 3.3 and later). -/
noncomputable def normalizedQ (q : Quaternion ℝ) : Quaternion ℝ :=
  if 0 < Quaternion.normSq q then (Real.sqrt (Quaternion.normSq q))⁻¹ • q else q

/-- Overwrite the `hp × wq` block of `M` whose top-left corner is at row
`r`, column `c` with the matrix `B`: the embedding of Eigen block
assignments such as `M.block(r, c, hp, wq) = B`. -/
def setBlock {m n hp wq : ℕ} (M : Matrix (Fin m) (Fin n) ℝ) (r c : ℕ)
    (B : Matrix (Fin hp) (Fin wq) ℝ) (h1 : 0 < hp) (h2 : 0 < wq) :
    Matrix (Fin m) (Fin n) ℝ :=
  Matrix.of fun i j =>
    if r ≤ i.val ∧ i.val < r + hp ∧ c ≤ j.val ∧ j.val < c + wq then
      B ⟨(i.val - r) % hp, Nat.mod_lt _ h1⟩ ⟨(j.val - c) % wq, Nat.mod_lt _ h2⟩
    else M i j

/-- Constants of the `EKF` class configured outside ekf.cpp (declared in
the header, which is not part of src/): gravity vector, process-noise
shaping matrix `LQL = L·Q·Lᵗ`, and measurement-noise covariance `W`. -/
structure Params where
  gravity : Fin 3 → ℝ
  LQL : Matrix (Fin 9) (Fin 9) ℝ
  W : Matrix (Fin 7) (Fin 7) ℝ

/-- Mutable member state of the `EKF` class: position `pos`, velocity
`vel`, orientation quaternion `qua`, scale, covariance `P`, last
timestamp `last_ns`, and the initialization flag read by
`isUpadatable()`. The flag is modelled from the spec (the header is not
part of src/): the filter is updatable exactly when `init` has run. -/
structure EKFState where
  pos : Fin 3 → ℝ
  vel : Fin 3 → ℝ
  qua : Quaternion ℝ
  scale : ℝ
  P : Matrix (Fin 9) (Fin 9) ℝ
  last_ns : ℕ
  upadatable : Bool

/-- `EKF::toVec` from ekf.cpp: pack position and quaternion as the
7-vector `(p0, p1, p2, qw, qx, qy, qz)`. -/
noncomputable def toVec (t : Fin 3 → ℝ) (q : Quaternion ℝ) : Fin 7 → ℝ :=
  ![t 0, t 1, t 2, q.re, q.imI, q.imJ, q.imK]

/-- `EKF::calcH` from ekf.cpp: the 7×9 observation Jacobian, zero except
for an identity top-left 3×3 block and the 4×3 matrix `0.5 · Q` at rows
3..6, columns 6..8. -/
noncomputable def calcH (q : Quaternion ℝ) : Matrix (Fin 7) (Fin 9) ℝ :=
  let Q : Matrix (Fin 4) (Fin 3) ℝ :=
    (0.5 : ℝ) • !![-q.imI, -q.imJ, -q.imK;
                    q.re, -q.imK, q.imJ;
                    q.imK, q.re, -q.imI;
                   -q.imJ, q.imI, q.re]
  setBlock (setBlock (0 : Matrix (Fin 7) (Fin 9) ℝ) 0 0
      (1 : Matrix (Fin 3) (Fin 3) ℝ) (by norm_num) (by norm_num))
    3 6 Q (by norm_num) (by norm_num)

/-- `EKF::calcF` from ekf.cpp: the 9×9 state-transition Jacobian, the
identity with block (0..2)×(3..5) set to `dt · I₃` and block
(3..5)×(6..8) set to `-hat(R(q)·acc) · dt`. -/
noncomputable def calcF (q : Quaternion ℝ) (acc : Fin 3 → ℝ) (dt : ℝ) :
    Matrix (Fin 9) (Fin 9) ℝ :=
  setBlock (setBlock (1 : Matrix (Fin 9) (Fin 9) ℝ) 0 3
      (dt • (1 : Matrix (Fin 3) (Fin 3) ℝ)) (by norm_num) (by norm_num))
    3 6 (dt • -hat ((toRotationMatrix q).mulVec acc)) (by norm_num) (by norm_num)

/-- `EKF::getState` from ekf.cpp: start from the 4×4 identity, overwrite
the top-left 3×3 block with `scale · R(qua)` and the top-right 3×1 block
with `pos`. A pure function of the state: it mutates nothing. -/
noncomputable def getState (s : EKFState) : Matrix (Fin 4) (Fin 4) ℝ :=
  setBlock (setBlock (1 : Matrix (Fin 4) (Fin 4) ℝ) 0 0
      (s.scale • toRotationMatrix s.qua) (by norm_num) (by norm_num))
    0 3 (Matrix.of fun i (_ : Fin 1) => s.pos i) (by norm_num) (by norm_num)

/-- `EKF::init` from ekf.cpp: decompose the 4×4 pose into rotation and
translation blocks, set `pos`, set `qua` to the normalized quaternion of
the rotation block, set `vel`, and reset `P = 0.5 · I₉`. Setting the
updatable flag is modelled from the spec (the filter becomes updatable
once `init` runs; the flag lives in the missing header). -/
noncomputable def init (T : Matrix (Fin 4) (Fin 4) ℝ) (v : Fin 3 → ℝ)
    (s : EKFState) : EKFState :=
  let R : Matrix (Fin 3) (Fin 3) ℝ := Matrix.of fun i j => T i.castSucc j.castSucc
  { s with
    pos := fun i => T i.castSucc 3
    qua := normalizedQ (fromRotationMatrix R)
    vel := v
    P := (0.5 : ℝ) • (1 : Matrix (Fin 9) (Fin 9) ℝ)
    upadatable := true }

/-- The elapsed-time value computed by `EKF::predict`:
`static_cast<float>(ns - last_ns) * 1e-9f`, with the subtraction
performed on `unsigned long` operands (modulo 2^64). -/
noncomputable def dtOf (ns last : ℕ) : ℝ :=
  (usub64 ns last : ℝ) * (1 / 1000000000 : ℝ)

/-- Body of `EKF::predict` after the updatable gate, parameterized by the
already-computed `dt`: state propagation followed by covariance
propagation. Note the source passes the already-updated quaternion to
`calcF`. -/
noncomputable def predictBody (p : Params) (s : EKFState)
    (acc omega : Fin 3 → ℝ) (dt : ℝ) (ns : ℕ) : EKFState :=
  let R := toRotationMatrix s.qua
  let dq := exp (fun i => omega i * dt)
  let nominal_acc := R.mulVec acc - p.gravity
  let pos2 := s.pos + dt • s.vel + ((0.5 : ℝ) * dt * dt) • nominal_acc
  let vel2 := s.vel + dt • nominal_acc
  let qua2 := s.qua * dq
  let F := calcF qua2 acc dt
  let P2 := F * s.P * F.transpose + dt • p.LQL
  { s with pos := pos2, vel := vel2, qua := qua2, P := P2, last_ns := ns }

/-- `EKF::predict` from ekf.cpp: if the filter is not updatable, record
the timestamp and return; otherwise compute `dt` from the unsigned
timestamp difference and run the propagation body. -/
noncomputable def predict (p : Params) (s : EKFState)
    (acc omega : Fin 3 → ℝ) (ns : ℕ) : EKFState :=
  if s.upadatable = true then
    predictBody p s acc omega (dtOf ns s.last_ns) ns
  else
    { s with last_ns := ns }

/-- Modelled from the spec: `getScale` (declared in core/util.hpp, which
is not part of src/) recovers the isotropic scale factor implied by the
transform's rotation block, its column norms before normalization. -/
noncomputable def getScale (T : Matrix (Fin 4) (Fin 4) ℝ) : ℝ :=
  norm3 ![T 0 0, T 1 0, T 2 0]

/-- Modelled from the spec: `normalizeRotation` (declared in
core/util.hpp, which is not part of src/) recovers a proper rotation by
removing the scale factor from the rotation block. -/
noncomputable def normalizeRotation (T : Matrix (Fin 4) (Fin 4) ℝ) :
    Matrix (Fin 3) (Fin 3) ℝ :=
  Matrix.of fun i j => T i.castSucc j.castSucc / getScale T

/-- `EKF::observe` from ekf.cpp: recover scale, observed rotation and
translation; build `H`, `S = H·P·Hᵗ + W`, `K = P·Hᵗ·S⁻¹`, the packed
residual, and the correction `dx = K·error`; apply the corrections and
update `P -= K·H·P`. The second (timestamp) argument is unused by the
source. -/
noncomputable def observe (p : Params) (s : EKFState)
    (T : Matrix (Fin 4) (Fin 4) ℝ) (ns : ℕ) : EKFState :=
  let scale2 := getScale T
  let R := normalizeRotation T
  let q := fromRotationMatrix R
  let t : Fin 3 → ℝ := fun i => T i.castSucc 3
  let H := calcH s.qua
  let S := H * s.P * H.transpose + p.W
  let Si := S⁻¹
  let K := s.P * H.transpose * Si
  let error := toVec t q - toVec s.pos s.qua
  let dx := K.mulVec error
  let dq := exp (fun i => dx ⟨6 + i.val, by have := i.isLt; omega⟩)
  { s with
    scale := scale2
    pos := s.pos + fun i => dx ⟨i.val, by have := i.isLt; omega⟩
    vel := s.vel + fun i => dx ⟨3 + i.val, by have := i.isLt; omega⟩
    qua := s.qua * dq
    P := s.P - K * H * s.P }

/-- States reachable by a finite sequence of `init`/`predict`/`observe`
calls that starts with `init` (from an arbitrary prior state). -/
inductive Reachable (p : Params) : EKFState → Prop where
  | initStep : ∀ (T : Matrix (Fin 4) (Fin 4) ℝ) (v : Fin 3 → ℝ)
      (s0 : EKFState), Reachable p (init T v s0)
  | predictStep : ∀ (s : EKFState) (acc omega : Fin 3 → ℝ) (ns : ℕ),
      Reachable p s → Reachable p (predict p s acc omega ns)
  | observeStep : ∀ (s : EKFState) (T : Matrix (Fin 4) (Fin 4) ℝ) (ns : ℕ),
      Reachable p s → Reachable p (observe p s T ns)

/-- Written from the spec's words (claim C2): the 9×9 state-transition
Jacobian, the identity except for the position-to-velocity block `I₃·dt`
and the velocity-to-attitude-error block `-hat(R·acc)·dt`. -/
noncomputable def Fclaim (R : Matrix (Fin 3) (Fin 3) ℝ) (acc : Fin 3 → ℝ)
    (dt : ℝ) : Matrix (Fin 9) (Fin 9) ℝ :=
  Matrix.of fun i j =>
    if i.val < 3 ∧ 3 ≤ j.val ∧ j.val < 6 then
      (if j.val = i.val + 3 then dt else 0)
    else if 3 ≤ i.val ∧ i.val < 6 ∧ 6 ≤ j.val then
      -(hat (R.mulVec acc) ⟨(i.val - 3) % 3, by omega⟩ ⟨(j.val - 6) % 3, by omega⟩) * dt
    else if i = j then 1 else 0

/-- Written from the spec's words (claim C5): the 4×3 matrix `Ξ(q)`
mapping a 3-vector attitude error to a quaternion differential. -/
noncomputable def Xi (q : Quaternion ℝ) : Matrix (Fin 4) (Fin 3) ℝ :=
  !![-q.imI, -q.imJ, -q.imK;
      q.re, -q.imK, q.imJ;
      q.imK, q.re, -q.imI;
     -q.imJ, q.imI, q.re]

/-- Written from the spec's words (claim C5): the 7×9 matrix whose
top-left 3×3 block is the identity, whose bottom-right 4×3 block is
`½·Ξ(q)`, and whose other entries are zero. -/
noncomputable def Hclaim (q : Quaternion ℝ) : Matrix (Fin 7) (Fin 9) ℝ :=
  Matrix.of fun i j =>
    if i.val < 3 ∧ j.val < 3 then (if i.val = j.val then 1 else 0)
    else if 3 ≤ i.val ∧ 6 ≤ j.val then
      (1 / 2 : ℝ) * Xi q ⟨(i.val - 3) % 4, by omega⟩ ⟨(j.val - 6) % 3, by omega⟩
    else 0

/-- The first three entries of a 9-vector, as a 3-vector. -/
noncomputable def seg0 (dx : Fin 9 → ℝ) : Fin 3 → ℝ :=
  fun i => dx ⟨i.val, by have := i.isLt; omega⟩

/-- Entries 3..5 of a 9-vector, as a 3-vector. -/
noncomputable def seg3 (dx : Fin 9 → ℝ) : Fin 3 → ℝ :=
  fun i => dx ⟨3 + i.val, by have := i.isLt; omega⟩

/-- Entries 6..8 of a 9-vector, as a 3-vector. -/
noncomputable def seg6 (dx : Fin 9 → ℝ) : Fin 3 → ℝ :=
  fun i => dx ⟨6 + i.val, by have := i.isLt; omega⟩

/-- Concrete parameter choice used by witnesses and counterexamples:
zero gravity and zero noise matrices. -/
noncomputable def exParams : Params :=
  { gravity := 0, LQL := 0, W := 0 }

/-- Concrete initialized filter state used by witnesses and
counterexamples: identity orientation, covariance `0.5 · I₉`,
`last_ns = 0`, updatable. -/
noncomputable def exState : EKFState :=
  { pos := 0, vel := 0, qua := 1, scale := 1,
    P := (0.5 : ℝ) • (1 : Matrix (Fin 9) (Fin 9) ℝ), last_ns := 0,
    upadatable := true }

/-- Concrete uninitialized filter state. -/
noncomputable def exStateRaw : EKFState :=
  { pos := 0, vel := 0, qua := 1, scale := 1, P := 0, last_ns := 5,
    upadatable := false }

/-- Concrete initialized filter state whose last timestamp is 1. -/
noncomputable def exStateL1 : EKFState := { exState with last_ns := 1 }

/-- The observation Jacobian at the example state's orientation. -/
noncomputable def exH : Matrix (Fin 7) (Fin 9) ℝ := Hclaim exState.qua

/-- The innovation covariance at the example state. -/
noncomputable def exS : Matrix (Fin 7) (Fin 7) ℝ :=
  exH * exState.P * exH.transpose + exParams.W

/-- The Kalman gain at the example state. -/
noncomputable def exK : Matrix (Fin 9) (Fin 7) ℝ :=
  exState.P * exH.transpose * exS⁻¹

/-- The packed residual at the example state for the identity pose. -/
noncomputable def exErr : Fin 7 → ℝ :=
  toVec (fun i => (1 : Matrix (Fin 4) (Fin 4) ℝ) i.castSucc 3)
    (fromRotationMatrix (normalizeRotation 1)) - toVec exState.pos exState.qua

/-- The correction vector at the example state for the identity pose. -/
noncomputable def exDx : Fin 9 → ℝ := exK.mulVec exErr

lemma sqnorm3_nonneg (v : Fin 3 → ℝ) : 0 ≤ sqnorm3 v := by
  unfold sqnorm3; positivity

lemma comps_zero_of_sqnorm3_nonpos (v : Fin 3 → ℝ) (h : sqnorm3 v ≤ 0) :
    ∀ i, v i = 0 := by
  unfold sqnorm3 at h
  have h0 : v 0 = 0 := by
    nlinarith [sq_nonneg (v 0), sq_nonneg (v 1), sq_nonneg (v 2)]
  have h1 : v 1 = 0 := by
    nlinarith [sq_nonneg (v 0), sq_nonneg (v 1), sq_nonneg (v 2)]
  have h2 : v 2 = 0 := by
    nlinarith [sq_nonneg (v 0), sq_nonneg (v 1), sq_nonneg (v 2)]
  intro i
  fin_cases i
  · exact h0
  · exact h1
  · exact h2

lemma exp_eq_one_of_zero (v : Fin 3 → ℝ) (h : ∀ i, v i = 0) : exp v = 1 := by
  have h3 : sqnorm3 v = 0 := by simp [sqnorm3, h]
  have hn : norm3 v = 0 := by simp [norm3, h3]
  simp only [exp, hn, zero_div, Real.cos_zero, Real.sin_zero, zero_smul,
    Pi.zero_apply]
  rfl

lemma usub64_of_le (a b : ℕ) (hba : b ≤ a) (hlt : a - b < 2 ^ 64) :
    usub64 a b = a - b := by
  unfold usub64
  have h64 : (2 : ℤ) ^ 64 = 18446744073709551616 := by norm_num
  have h64n : (2 : ℕ) ^ 64 = 18446744073709551616 := by norm_num
  rw [h64]
  rw [h64n] at hlt
  omega

lemma usub64_of_gt (a b : ℕ) (hab : a < b) (hb : b < 2 ^ 64) :
    usub64 a b = 2 ^ 64 - (b - a) := by
  unfold usub64
  have h64 : (2 : ℤ) ^ 64 = 18446744073709551616 := by norm_num
  have h64n : (2 : ℕ) ^ 64 = 18446744073709551616 := by norm_num
  rw [h64, h64n]
  rw [h64n] at hb
  omega

lemma exp_zero_fun : exp (fun _ : Fin 3 => (0 : ℝ)) = 1 :=
  exp_eq_one_of_zero _ (fun _ => rfl)

set_option maxHeartbeats 1000000 in
lemma calcF_eq_Fclaim (q : Quaternion ℝ) (acc : Fin 3 → ℝ) (dt : ℝ) :
    calcF q acc dt = Fclaim (toRotationMatrix q) acc dt := by
  ext i j
  fin_cases i <;> fin_cases j <;>
    simp +decide [calcF, Fclaim, setBlock, Matrix.one_apply,
      Matrix.smul_apply, Matrix.neg_apply, smul_eq_mul] <;> ring

set_option maxHeartbeats 1000000 in
lemma calcH_eq_Hclaim (q : Quaternion ℝ) : calcH q = Hclaim q := by
  have h05 : (0.5 : ℝ) = 1 / 2 := by norm_num
  ext i j
  fin_cases i <;> fin_cases j <;>
    simp +decide [calcH, Hclaim, Xi, setBlock, Matrix.one_apply, h05,
      Matrix.smul_apply, smul_eq_mul]

lemma calcF_dt_zero (q : Quaternion ℝ) (acc : Fin 3 → ℝ) :
    calcF q acc 0 = 1 := by
  ext i j
  simp only [calcF, setBlock, Matrix.of_apply, zero_smul, Matrix.zero_apply]
  split_ifs with hb1 hb2
  · exact (Matrix.one_apply_ne (by rintro rfl; omega)).symm
  · exact (Matrix.one_apply_ne (by rintro rfl; omega)).symm
  · rfl

lemma predict_P (p : Params) (s : EKFState) (acc omega : Fin 3 → ℝ) (ns : ℕ)
    (h : s.upadatable = true) :
    (predict p s acc omega ns).P =
      calcF (s.qua * exp (fun i => omega i * dtOf ns s.last_ns)) acc
          (dtOf ns s.last_ns) * s.P *
        (calcF (s.qua * exp (fun i => omega i * dtOf ns s.last_ns)) acc
          (dtOf ns s.last_ns)).transpose +
      dtOf ns s.last_ns • p.LQL := by
  simp [predict, h, predictBody]

lemma exp_z_pi : exp ![0, 0, Real.pi] = ⟨0, 0, 0, 1⟩ := by
  have hsq : sqnorm3 ![0, 0, Real.pi] = Real.pi ^ 2 := by
    norm_num [sqnorm3]
  have hpos : 0 < sqnorm3 ![0, 0, Real.pi] := by
    rw [hsq]; positivity
  have hn : norm3 ![0, 0, Real.pi] = Real.pi := by
    rw [norm3, hsq, Real.sqrt_sq Real.pi_pos.le]
  have hnorm : normalized3 ![0, 0, Real.pi] = ![0, 0, 1] := by
    unfold normalized3
    rw [if_pos hpos, hn]
    funext i
    fin_cases i <;> simp [Real.pi_ne_zero]
  simp only [exp, hn, hnorm]
  simp [Real.cos_pi_div_two, Real.sin_pi_div_two]

lemma hat_negx : hat ![(-1 : ℝ), 0, 0] = !![0, 0, 0; 0, 0, 1; 0, -1, 0] := by
  ext i j
  fin_cases i <;> fin_cases j <;> norm_num [hat]

lemma hat_posx : hat ![(1 : ℝ), 0, 0] = !![0, 0, 0; 0, 0, -1; 0, 1, 0] := by
  ext i j
  fin_cases i <;> fin_cases j <;> norm_num [hat]

lemma rot_z_pi_mulvec :
    (toRotationMatrix ⟨0, 0, 0, 1⟩).mulVec ![1, 0, 0] = ![(-1 : ℝ), 0, 0] := by
  funext i
  fin_cases i <;>
    norm_num [toRotationMatrix, Matrix.mulVec, Matrix.dotProduct, Fin.sum_univ_three]

lemma rot_one_mulvec :
    (toRotationMatrix 1).mulVec ![1, 0, 0] = ![(1 : ℝ), 0, 0] := by
  funext i
  fin_cases i <;>
    norm_num [toRotationMatrix, Matrix.mulVec, Matrix.dotProduct, Fin.sum_univ_three]

set_option maxHeartbeats 1000000 in
lemma cex_lhs_entry :
    (calcF ⟨0, 0, 0, 1⟩ ![1, 0, 0] 1 * exState.P *
      (calcF ⟨0, 0, 0, 1⟩ ![1, 0, 0] 1).transpose +
        (1 : ℝ) • exParams.LQL) ⟨5, by norm_num⟩ ⟨7, by norm_num⟩ = 1 / 2 := by
  have hP : exState.P = (0.5 : ℝ) • (1 : Matrix (Fin 9) (Fin 9) ℝ) := rfl
  have hL : exParams.LQL = 0 := rfl
  rw [hP, hL, Matrix.mul_smul, Matrix.mul_one, Matrix.smul_mul, smul_zero]
  rw [Matrix.add_apply, Matrix.zero_apply, Matrix.smul_apply, Matrix.mul_apply]
  simp only [calcF, rot_z_pi_mulvec, hat_negx, setBlock, Matrix.of_apply]
  simp only [Matrix.transpose_apply, Fin.sum_univ_succ, Fin.sum_univ_zero,
    Fin.val_succ, Fin.val_zero]
  norm_num [Matrix.one_apply, Matrix.smul_apply, Matrix.neg_apply,
    Matrix.cons_val_zero, Matrix.cons_val_one, Matrix.head_cons,
    Matrix.cons_val_two, Matrix.vecTail, Matrix.vecHead,
    Fin.ext_iff, Fin.val_succ, Fin.val_zero, Fin.val_one, Fin.val_two]

lemma normSq_smul (r : ℝ) (q : Quaternion ℝ) :
    Quaternion.normSq (r • q) = r ^ 2 * Quaternion.normSq q := by
  rw [← Quaternion.coe_mul_eq_smul, map_mul, Quaternion.normSq_coe]

lemma normSq_exp (v : Fin 3 → ℝ) : Quaternion.normSq (exp v) = 1 := by
  by_cases h : 0 < sqnorm3 v
  · have hn2 : norm3 v ^ 2 = sqnorm3 v := Real.sq_sqrt (sqnorm3_nonneg v)
    have hne : norm3 v ≠ 0 := ne_of_gt (Real.sqrt_pos.mpr h)
    have hunfold : normalized3 v = (norm3 v)⁻¹ • v := by
      unfold normalized3
      rw [if_pos h]
    have hr : (norm3 v)⁻¹ ^ 2 * (v 0 ^ 2 + v 1 ^ 2 + v 2 ^ 2) = 1 := by
      have hs : v 0 ^ 2 + v 1 ^ 2 + v 2 ^ 2 = norm3 v ^ 2 := by
        rw [hn2]; rfl
      rw [hs, inv_pow, inv_mul_cancel₀ (pow_ne_zero 2 hne)]
    simp only [exp, hunfold, Quaternion.normSq_def', Pi.smul_apply,
      smul_eq_mul]
    linear_combination Real.sin (norm3 v / 2) ^ 2 * hr +
      Real.sin_sq_add_cos_sq (norm3 v / 2)
  · push_neg at h
    rw [exp_eq_one_of_zero v (comps_zero_of_sqnorm3_nonpos v h)]
    simp

lemma bigTrace_ne_zero (m : Matrix (Fin 3) (Fin 3) ℝ)
    (h : 0 < m 0 0 + m 1 1 + m 2 2) : bigTrace m ≠ 0 := by
  intro h0
  have hs : 0 < Real.sqrt (m 0 0 + m 1 1 + m 2 2 + 1) :=
    Real.sqrt_pos.mpr (by linarith)
  have hre : (bigTrace m).re = 0 := by rw [h0]; simp
  simp only [bigTrace] at hre
  linarith [hs, hre]

lemma bigDiag0_ne_zero (m : Matrix (Fin 3) (Fin 3) ℝ)
    (h : 0 < m 0 0 - m 1 1 - m 2 2 + 1) : bigDiag0 m ≠ 0 := by
  intro h0
  have hs : 0 < Real.sqrt (m 0 0 - m 1 1 - m 2 2 + 1) := Real.sqrt_pos.mpr h
  have hc : (bigDiag0 m).imI = 0 := by rw [h0]; simp
  simp only [bigDiag0] at hc
  linarith [hs, hc]

lemma bigDiag1_ne_zero (m : Matrix (Fin 3) (Fin 3) ℝ)
    (h : 0 < m 1 1 - m 2 2 - m 0 0 + 1) : bigDiag1 m ≠ 0 := by
  intro h0
  have hs : 0 < Real.sqrt (m 1 1 - m 2 2 - m 0 0 + 1) := Real.sqrt_pos.mpr h
  have hc : (bigDiag1 m).imJ = 0 := by rw [h0]; simp
  simp only [bigDiag1] at hc
  linarith [hs, hc]

lemma bigDiag2_ne_zero (m : Matrix (Fin 3) (Fin 3) ℝ)
    (h : 0 < m 2 2 - m 0 0 - m 1 1 + 1) : bigDiag2 m ≠ 0 := by
  intro h0
  have hs : 0 < Real.sqrt (m 2 2 - m 0 0 - m 1 1 + 1) := Real.sqrt_pos.mpr h
  have hc : (bigDiag2 m).imK = 0 := by rw [h0]; simp
  simp only [bigDiag2] at hc
  linarith [hs, hc]

lemma fromRotationMatrix_ne_zero (m : Matrix (Fin 3) (Fin 3) ℝ) :
    fromRotationMatrix m ≠ 0 := by
  unfold fromRotationMatrix
  split_ifs with h1 h2 h3 h4
  · exact bigTrace_ne_zero m h1
  · push_neg at h1
    exact bigDiag2_ne_zero m (by linarith)
  · push_neg at h1 h3
    exact bigDiag1_ne_zero m (by linarith)
  · push_neg at h1 h2
    exact bigDiag2_ne_zero m (by linarith)
  · push_neg at h1 h2 h4
    exact bigDiag0_ne_zero m (by linarith)

lemma normSq_normalizedQ (q : Quaternion ℝ) (h : q ≠ 0) :
    Quaternion.normSq (normalizedQ q) = 1 := by
  have hpos : 0 < Quaternion.normSq q :=
    lt_of_le_of_ne Quaternion.normSq_nonneg
      (fun h1 => h (Quaternion.normSq_eq_zero.mp h1.symm))
  unfold normalizedQ
  rw [if_pos hpos, normSq_smul, inv_pow, Real.sq_sqrt hpos.le,
    inv_mul_cancel₀ (ne_of_gt hpos)]

lemma init_normSq (T : Matrix (Fin 4) (Fin 4) ℝ) (v : Fin 3 → ℝ)
    (s : EKFState) : Quaternion.normSq (init T v s).qua = 1 :=
  normSq_normalizedQ _ (fromRotationMatrix_ne_zero _)

lemma predict_normSq (p : Params) (s : EKFState) (acc omega : Fin 3 → ℝ)
    (ns : ℕ) (h : Quaternion.normSq s.qua = 1) :
    Quaternion.normSq (predict p s acc omega ns).qua = 1 := by
  unfold predict
  split_ifs with hu
  · show Quaternion.normSq (s.qua * exp _) = 1
    rw [map_mul, h, normSq_exp, one_mul]
  · exact h

lemma observe_normSq (p : Params) (s : EKFState)
    (T : Matrix (Fin 4) (Fin 4) ℝ) (ns : ℕ)
    (h : Quaternion.normSq s.qua = 1) :
    Quaternion.normSq (observe p s T ns).qua = 1 := by
  show Quaternion.normSq (s.qua * exp _) = 1
  rw [map_mul, h, normSq_exp, one_mul]

set_option maxHeartbeats 1000000 in
lemma cex_rhs_entry :
    (Fclaim (toRotationMatrix 1) ![1, 0, 0] 1 * exState.P *
      (Fclaim (toRotationMatrix 1) ![1, 0, 0] 1).transpose +
        (1 : ℝ) • exParams.LQL) ⟨5, by norm_num⟩ ⟨7, by norm_num⟩ = -(1 / 2) := by
  have hP : exState.P = (0.5 : ℝ) • (1 : Matrix (Fin 9) (Fin 9) ℝ) := rfl
  have hL : exParams.LQL = 0 := rfl
  rw [hP, hL, Matrix.mul_smul, Matrix.mul_one, Matrix.smul_mul, smul_zero]
  rw [Matrix.add_apply, Matrix.zero_apply, Matrix.smul_apply, Matrix.mul_apply]
  simp only [Fclaim, rot_one_mulvec, hat_posx, Matrix.of_apply]
  simp only [Matrix.transpose_apply, Fin.sum_univ_succ, Fin.sum_univ_zero,
    Fin.val_succ, Fin.val_zero]
  norm_num [Fin.ext_iff, Fin.val_succ, Fin.val_zero, Fin.val_one, Fin.val_two,
    Matrix.cons_val_zero, Matrix.cons_val_one, Matrix.head_cons,
    Matrix.cons_val_two, Matrix.vecTail, Matrix.vecHead]

end VllmEKF

open VllmEKF

/-- C1: for every 3-vector of zero norm, `EKF::exp` returns exactly the
identity quaternion `(1, 0, 0, 0)`; in the exact real-number model no
division by zero occurs because Eigen's `normalized()` leaves a
zero-norm vector unchanged. -/
theorem claim_C1 (v : Fin 3 → ℝ) (h : norm3 v = 0) : VllmEKF.exp v = 1 := by
  have hle : sqnorm3 v ≤ 0 := by
    have := Real.sqrt_eq_zero'.mp h
    simpa [norm3] using this
  exact exp_eq_one_of_zero v (comps_zero_of_sqnorm3_nonpos v hle)

/-- Witness for C1 at the zero vector. -/
theorem claim_C1_witness :
    norm3 ![(0 : ℝ), 0, 0] = 0 ∧ VllmEKF.exp ![(0 : ℝ), 0, 0] = 1 := by
  have h : norm3 ![(0 : ℝ), 0, 0] = 0 := by
    norm_num [norm3, sqnorm3]
  exact ⟨h, claim_C1 _ h⟩

/-- C6: a `predict` call on a not-yet-updatable filter records the
timestamp into `last_ns` and changes nothing else. -/
theorem claim_C6 (p : Params) (s : EKFState) (acc omega : Fin 3 → ℝ)
    (ns : ℕ) (h : s.upadatable = false) :
    (predict p s acc omega ns).last_ns = ns ∧
    (predict p s acc omega ns).pos = s.pos ∧
    (predict p s acc omega ns).vel = s.vel ∧
    (predict p s acc omega ns).qua = s.qua ∧
    (predict p s acc omega ns).scale = s.scale ∧
    (predict p s acc omega ns).P = s.P := by
  simp [predict, h]

/-- Witness for C6 at a concrete uninitialized state. -/
theorem claim_C6_witness :
    exStateRaw.upadatable = false ∧
    ((predict exParams exStateRaw 0 0 7).last_ns = 7 ∧
      (predict exParams exStateRaw 0 0 7).pos = exStateRaw.pos ∧
      (predict exParams exStateRaw 0 0 7).vel = exStateRaw.vel ∧
      (predict exParams exStateRaw 0 0 7).qua = exStateRaw.qua ∧
      (predict exParams exStateRaw 0 0 7).scale = exStateRaw.scale ∧
      (predict exParams exStateRaw 0 0 7).P = exStateRaw.P) :=
  ⟨rfl, claim_C6 exParams exStateRaw 0 0 7 rfl⟩

/-- C10: `observe` ignores its timestamp argument entirely: the result
is identical for any two timestamps and `last_ns` is left untouched (so
the next `predict` spans back to the last `predict`). -/
theorem claim_C10 (p : Params) (s : EKFState) (T : Matrix (Fin 4) (Fin 4) ℝ)
    (ns1 ns2 : ℕ) :
    observe p s T ns1 = observe p s T ns2 ∧
    (observe p s T ns1).last_ns = s.last_ns :=
  ⟨rfl, rfl⟩

/-- C8: a second `predict` with the same timestamp as the previous call
(so `dt = 0`) leaves position, velocity, orientation and covariance
unchanged. -/
theorem claim_C8 (p : Params) (s : EKFState) (acc omega : Fin 3 → ℝ)
    (h : s.upadatable = true) :
    (predict p s acc omega s.last_ns).pos = s.pos ∧
    (predict p s acc omega s.last_ns).vel = s.vel ∧
    (predict p s acc omega s.last_ns).qua = s.qua ∧
    (predict p s acc omega s.last_ns).P = s.P := by
  have hu : usub64 s.last_ns s.last_ns = 0 := by
    unfold usub64
    simp
  have hdt : dtOf s.last_ns s.last_ns = 0 := by
    rw [dtOf, hu]
    norm_num
  refine ⟨?_, ?_, ?_, ?_⟩ <;>
    simp [predict, h, hdt, predictBody, exp_zero_fun, calcF_dt_zero,
      Matrix.transpose_one, mul_zero, zero_mul]

/-- Witness for C8 at a concrete initialized state. -/
theorem claim_C8_witness :
    exState.upadatable = true ∧
    ((predict exParams exState 0 0 exState.last_ns).pos = exState.pos ∧
     (predict exParams exState 0 0 exState.last_ns).vel = exState.vel ∧
     (predict exParams exState 0 0 exState.last_ns).qua = exState.qua ∧
     (predict exParams exState 0 0 exState.last_ns).P = exState.P) :=
  ⟨rfl, claim_C8 exParams exState 0 0 rfl⟩

/-- C9: `getState` returns the 4×4 matrix whose top-left 3×3 block is
`scale · R(orientation)`, whose top-right column is the position, and
whose bottom row is exactly `(0, 0, 0, 1)`; being a pure function of the
state it mutates nothing. -/
theorem claim_C9 (s : EKFState) :
    (∀ i j : Fin 3, getState s i.castSucc j.castSucc =
      s.scale * toRotationMatrix s.qua i j) ∧
    (∀ i : Fin 3, getState s i.castSucc 3 = s.pos i) ∧
    (∀ j : Fin 4, getState s 3 j = ![(0 : ℝ), 0, 0, 1] j) := by
  refine ⟨fun i j => ?_, fun i => ?_, fun j => ?_⟩
  · fin_cases i <;> fin_cases j <;>
      simp +decide [getState, setBlock, Matrix.smul_apply, smul_eq_mul]
  · fin_cases i <;> simp +decide [getState, setBlock]
  · fin_cases j <;> simp +decide [getState, setBlock, Matrix.one_apply]

/-- C4: a post-initialization `predict` with a timestamp at or after the
previous one updates the state by the constant-acceleration
discretization: with `dt = (ns - last_ns)·1e-9`, `R` the rotation matrix
of the orientation held at the start of the call and
`a_world = R·acc - gravity`, position gains `vel·dt + ½·a_world·dt²`,
velocity gains `a_world·dt`, the orientation is right-multiplied by
`exp(gyro·dt)`, and `last_ns` becomes `ns`. -/
theorem claim_C4 (p : Params) (s : EKFState) (acc omega : Fin 3 → ℝ)
    (ns : ℕ) (dt : ℝ) (aw : Fin 3 → ℝ)
    (h : s.upadatable = true) (hord : s.last_ns ≤ ns)
    (hlt : ns - s.last_ns < 2 ^ 64)
    (hdt : dt = ((ns - s.last_ns : ℕ) : ℝ) * (1 / 1000000000 : ℝ))
    (haw : aw = (toRotationMatrix s.qua).mulVec acc - p.gravity) :
    (predict p s acc omega ns).pos =
      s.pos + dt • s.vel + ((1 / 2 : ℝ) * dt * dt) • aw ∧
    (predict p s acc omega ns).vel = s.vel + dt • aw ∧
    (predict p s acc omega ns).qua = s.qua * exp (fun i => omega i * dt) ∧
    (predict p s acc omega ns).last_ns = ns := by
  have hdt2 : dtOf ns s.last_ns = dt := by
    rw [dtOf, usub64_of_le ns s.last_ns hord hlt, hdt]
  have h05 : (0.5 : ℝ) = 1 / 2 := by norm_num
  subst haw
  refine ⟨?_, ?_, ?_, ?_⟩ <;>
    simp [predict, h, hdt2, predictBody, h05]

/-- Witness for C4 at a concrete initialized state and timestamp. -/
theorem claim_C4_witness :
    exState.upadatable = true ∧ exState.last_ns ≤ 2000000000 ∧
    2000000000 - exState.last_ns < 2 ^ 64 ∧
    ((predict exParams exState ![1, 0, 0] ![0, 1, 0] 2000000000).pos =
      exState.pos + (2 : ℝ) • exState.vel +
        ((1 / 2 : ℝ) * 2 * 2) •
          ((toRotationMatrix exState.qua).mulVec ![1, 0, 0] - exParams.gravity) ∧
     (predict exParams exState ![1, 0, 0] ![0, 1, 0] 2000000000).vel =
      exState.vel + (2 : ℝ) •
        ((toRotationMatrix exState.qua).mulVec ![1, 0, 0] - exParams.gravity) ∧
     (predict exParams exState ![1, 0, 0] ![0, 1, 0] 2000000000).qua =
      exState.qua * exp (fun i => ![(0 : ℝ), 1, 0] i * 2) ∧
     (predict exParams exState ![1, 0, 0] ![0, 1, 0] 2000000000).last_ns =
      2000000000) :=
  ⟨rfl, by norm_num [exState], by norm_num [exState],
    claim_C4 exParams exState ![1, 0, 0] ![0, 1, 0] 2000000000 2 _
      rfl (by norm_num [exState]) (by norm_num [exState])
      (by norm_num [exState]) rfl⟩

/-- Counterexample to C7 as stated: with `last_ns = 1` and an
out-of-order timestamp `ns = 0`, the dt computed by the code is not
negative (the unsigned 64-bit subtraction wraps around). -/
theorem claim_C7_cex : ¬ dtOf 0 1 < 0 := by
  have h : usub64 0 1 = 2 ^ 64 - 1 :=
    usub64_of_gt 0 1 (by norm_num) (by norm_num)
  rw [dtOf, h]
  exact not_lt.mpr (by positivity)

/-- C7 amended: for a post-initialization `predict` whose timestamp is
strictly smaller than `last_ns`, the computed dt is the wrapped unsigned
difference `(2^64 - (last_ns - ns))·1e-9` — a huge positive value, not a
negative one — and the propagation proceeds unguarded with it. -/
theorem claim_C7_amended (p : Params) (s : EKFState) (acc omega : Fin 3 → ℝ)
    (ns : ℕ) (h : s.upadatable = true) (hgt : ns < s.last_ns)
    (hb : s.last_ns < 2 ^ 64) :
    dtOf ns s.last_ns =
      ((2 ^ 64 - (s.last_ns - ns) : ℕ) : ℝ) * (1 / 1000000000 : ℝ) ∧
    0 < dtOf ns s.last_ns ∧
    predict p s acc omega ns =
      predictBody p s acc omega (dtOf ns s.last_ns) ns := by
  have hu : usub64 ns s.last_ns = 2 ^ 64 - (s.last_ns - ns) :=
    usub64_of_gt ns s.last_ns hgt hb
  refine ⟨by rw [dtOf, hu], ?_, by simp [predict, h]⟩
  rw [dtOf, hu]
  have hpos : (0 : ℕ) < 2 ^ 64 - (s.last_ns - ns) := by omega
  have hc : (0 : ℝ) < ((2 ^ 64 - (s.last_ns - ns) : ℕ) : ℝ) :=
    Nat.cast_pos.mpr hpos
  have h9 : (0 : ℝ) < 1 / 1000000000 := by norm_num
  exact mul_pos hc h9

/-- Witness for C7 at a concrete state with `last_ns = 1` and `ns = 0`. -/
theorem claim_C7_witness :
    exStateL1.upadatable = true ∧ (0 : ℕ) < exStateL1.last_ns ∧
    exStateL1.last_ns < 2 ^ 64 ∧
    (dtOf 0 exStateL1.last_ns =
        ((2 ^ 64 - (exStateL1.last_ns - 0) : ℕ) : ℝ) * (1 / 1000000000 : ℝ) ∧
      0 < dtOf 0 exStateL1.last_ns ∧
      predict exParams exStateL1 0 0 0 =
        predictBody exParams exStateL1 0 0 (dtOf 0 exStateL1.last_ns) 0) :=
  ⟨rfl, by norm_num [exStateL1], by norm_num [exStateL1],
    claim_C7_amended exParams exStateL1 0 0 0 rfl
      (by norm_num [exStateL1]) (by norm_num [exStateL1])⟩

/-- C5: `observe` computes `S = H·P·Hᵗ + W`, `K = P·Hᵗ·S⁻¹`, the packed
residual `error = vec(t_obs, q_obs) - vec(pos, qua)` and `dx = K·error`,
where `H` is the 7×9 matrix with identity top-left 3×3 block and
bottom-right 4×3 block `½·Ξ(qua)`; it then applies `pos += dx[0:3]`,
`vel += dx[3:6]`, `qua := qua · exp(dx[6:9])`, `P := P - K·H·P`. -/
theorem claim_C5 (p : Params) (s : EKFState) (T : Matrix (Fin 4) (Fin 4) ℝ)
    (ns : ℕ) (H : Matrix (Fin 7) (Fin 9) ℝ) (S : Matrix (Fin 7) (Fin 7) ℝ)
    (K : Matrix (Fin 9) (Fin 7) ℝ) (error : Fin 7 → ℝ) (dx : Fin 9 → ℝ)
    (hH : H = Hclaim s.qua)
    (hS : S = H * s.P * H.transpose + p.W)
    (hK : K = s.P * H.transpose * S⁻¹)
    (herr : error = toVec (fun i => T i.castSucc 3)
      (fromRotationMatrix (normalizeRotation T)) - toVec s.pos s.qua)
    (hdx : dx = K.mulVec error) :
    (observe p s T ns).pos = s.pos + seg0 dx ∧
    (observe p s T ns).vel = s.vel + seg3 dx ∧
    (observe p s T ns).qua = s.qua * exp (seg6 dx) ∧
    (observe p s T ns).P = s.P - K * H * s.P := by
  subst hH hS hK herr hdx
  simp only [observe]
  rw [calcH_eq_Hclaim]
  exact ⟨rfl, rfl, rfl, rfl⟩

/-- Witness for C5 at the example state and the identity measured pose. -/
theorem claim_C5_witness :
    (observe exParams exState 1 0).pos = exState.pos + seg0 exDx ∧
    (observe exParams exState 1 0).vel = exState.vel + seg3 exDx ∧
    (observe exParams exState 1 0).qua = exState.qua * exp (seg6 exDx) ∧
    (observe exParams exState 1 0).P = exState.P - exK * exH * exState.P :=
  claim_C5 exParams exState 1 0 exH exS exK exErr exDx rfl rfl rfl rfl rfl

/-- C2 amended: the covariance propagates as `P = F·P·Fᵗ + LQL·dt` with
`F` the identity except for the `I₃·dt` and `-hat(R·acc)·dt` blocks, but
`R` is the rotation matrix of the orientation AFTER the incremental
rotation `dq` has been multiplied in (the source updates `qua` before
calling `calcF`), not the orientation held at the start of the call. -/
theorem claim_C2_amended (p : Params) (s : EKFState) (acc omega : Fin 3 → ℝ)
    (ns : ℕ) (dt : ℝ) (q2 : Quaternion ℝ)
    (h : s.upadatable = true)
    (hdt : dt = dtOf ns s.last_ns)
    (hq2 : q2 = s.qua * exp (fun i => omega i * dt)) :
    (predict p s acc omega ns).P =
      Fclaim (toRotationMatrix q2) acc dt * s.P *
        (Fclaim (toRotationMatrix q2) acc dt).transpose + dt • p.LQL := by
  subst hdt hq2
  simp [predict, h, predictBody, calcF_eq_Fclaim]

/-- Witness for C2 at a concrete state and inputs. -/
theorem claim_C2_witness :
    exState.upadatable = true ∧
    (predict exParams exState ![1, 0, 0] ![0, 1, 0] 2000000000).P =
      Fclaim
          (toRotationMatrix (exState.qua *
            exp (fun i => ![(0 : ℝ), 1, 0] i * dtOf 2000000000 exState.last_ns)))
          ![1, 0, 0] (dtOf 2000000000 exState.last_ns) *
        exState.P *
        (Fclaim
          (toRotationMatrix (exState.qua *
            exp (fun i => ![(0 : ℝ), 1, 0] i * dtOf 2000000000 exState.last_ns)))
          ![1, 0, 0] (dtOf 2000000000 exState.last_ns)).transpose +
      dtOf 2000000000 exState.last_ns • exParams.LQL :=
  ⟨rfl, claim_C2_amended exParams exState ![1, 0, 0] ![0, 1, 0] 2000000000
    (dtOf 2000000000 exState.last_ns) _ rfl rfl rfl⟩

/-- Counterexample to C2 as stated: at a concrete initialized state with
identity orientation, a z-axis rotation of π over one second and a unit
x acceleration, the covariance produced by `predict` disagrees (entry
(5,7)) with the formula built from the orientation held at the start of
the call: the source updates the quaternion before building `F`. -/
theorem claim_C2_cex :
    ¬ ((predict exParams exState ![1, 0, 0] ![0, 0, Real.pi] 1000000000).P =
       Fclaim (toRotationMatrix exState.qua) ![1, 0, 0]
           (dtOf 1000000000 exState.last_ns) * exState.P *
         (Fclaim (toRotationMatrix exState.qua) ![1, 0, 0]
           (dtOf 1000000000 exState.last_ns)).transpose +
       dtOf 1000000000 exState.last_ns • exParams.LQL) := by
  intro hEq
  have hqua : exState.qua = 1 := rfl
  have hdt : dtOf 1000000000 exState.last_ns = 1 := by
    have h0 : exState.last_ns = 0 := rfl
    rw [h0, dtOf, usub64_of_le 1000000000 0 (by norm_num) (by norm_num)]
    norm_num
  have hfun : (fun i => (![(0 : ℝ), 0, Real.pi]) i * 1) = ![0, 0, Real.pi] := by
    funext i
    rw [mul_one]
  have hq2 : exState.qua * exp (fun i => (![(0 : ℝ), 0, Real.pi]) i *
      dtOf 1000000000 exState.last_ns) = ⟨0, 0, 0, 1⟩ := by
    rw [hqua, hdt, hfun, exp_z_pi, one_mul]
  rw [predict_P exParams exState ![1, 0, 0] ![0, 0, Real.pi] 1000000000 rfl,
    hq2, hdt, hqua] at hEq
  have h57 := Matrix.ext_iff.mpr hEq ⟨5, by norm_num⟩ ⟨7, by norm_num⟩
  rw [cex_lhs_entry, cex_rhs_entry] at h57
  norm_num at h57

/-- C3: after any finite sequence of `init`/`predict`/`observe` calls
starting with `init`, the orientation quaternion has unit norm (in the
exact real-number model, `normSq qua = 1` exactly): `init` normalizes
the quaternion obtained from the pose's rotation block (which is never
the zero quaternion), and each quaternion assignment in `predict` and
`observe` right-multiplies by a unit quaternion produced by `exp`. -/
theorem claim_C3 (p : Params) (s : EKFState) (h : Reachable p s) :
    Quaternion.normSq s.qua = 1 := by
  induction h with
  | initStep T v s0 => exact init_normSq T v s0
  | predictStep s1 acc omega ns h1 ih =>
      exact predict_normSq p s1 acc omega ns ih
  | observeStep s1 T ns h1 ih => exact observe_normSq p s1 T ns ih

/-- Witness for C3 at the state produced by `init` with the identity
pose. -/
theorem claim_C3_witness :
    Quaternion.normSq (init 1 0 exStateRaw).qua = 1 :=
  claim_C3 exParams _ (@Reachable.initStep exParams 1 0 exStateRaw)
